import Mathlib

/-!
Shallow embedding of the knowledge-ingestion and retrieval engine of this
repository (`src/tools/base.py`: class `EmbeddedSystemsTools`, and the
auto-ingest decision of `src/agent/agent.py`).

Modelling conventions:
* A file on disk is abstracted as an `FState` record carrying exactly the
  observations the Python code makes of it: its name, printed path, resolved
  path, lower-cased extension, byte size, existence flag, the outcome of a
  text read (`readResult`, `none` meaning the read raised), the outcome of a
  PDF parse (`pdfPages`, `none` meaning `PyPDFLoader` raised, `some pages`
  giving each page's extracted text), whether the vector-store write for this
  file succeeds (`addOk`), and the exception text used when it does not.
* The text splitter (`RecursiveCharacterTextSplitter.split_documents`) is an
  opaque external collaborator; it is passed in as a function from the list of
  document texts to the list of chunk texts.
* The vector store is represented by its availability flag (`self.vectorstore`
  being non-`None`) plus the per-file `addOk` outcome of `add_documents`.
* Python strings are Lean `String`s; `str.strip()` is `pyStrip`;
  `str(e)[:100]` is `String.take`; the dictionary `self.ingested_files` is an
  insertion-ordered association list with Python-dict assignment semantics.
-/

namespace MajorP

/-- Value stored in `self.ingested_files[name]` by `add_knowledge`
(`path`, `type`, `chunks`, `size`). -/
structure LedgerEntry where
  path : String
  ftype : String
  chunks : Nat
  size : Nat
deriving Repr, DecidableEq

/-- The in-memory ingestion ledger `self.ingested_files`, an insertion-ordered
map from filename to entry, as a Python dict is. -/
abbrev Ledger := List (String × LedgerEntry)

/-- Python dict assignment `d[k] = v`: replaces the value in place if the key
is present, appends a new binding otherwise. -/
def dictInsert (k : String) (v : LedgerEntry) : Ledger → Ledger
  | [] => [(k, v)]
  | (k', v') :: rest => if k' = k then (k, v) :: rest else (k', v') :: dictInsert k v rest

/-- Python dict lookup `d.get(k)`. -/
def dictGet (k : String) : Ledger → Option LedgerEntry
  | [] => none
  | (k', v') :: rest => if k' = k then some v' else dictGet k rest

/-- `EmbeddedSystemsTools.SUPPORTED_EXTENSIONS`, in source order: extension to
file-kind label. The trailing block of entries is the source's
"Exclude binary - will be skipped" block, which is part of this table. -/
def SUPPORTED_EXTENSIONS : List (String × String) :=
  [(".pdf", "PDF Document"), (".txt", "Text File"), (".md", "Markdown"),
   (".adoc", "AsciiDoc"),
   (".ino", "Arduino Code"), (".pde", "Processing Code"),
   (".cpp", "C++ Code"), (".c", "C Code"), (".h", "Header File"),
   (".hpp", "C++ Header"),
   (".py", "Python Code"), (".java", "Java Code"),
   (".json", "JSON Data"), (".csv", "CSV Data"), (".yaml", "YAML Config"),
   (".yml", "YAML Config"), (".properties", "Properties Config"),
   (".sh", "Shell Script"),
   (".sb3", "Scratch Project"), (".jpg", "Image"), (".png", "Image"),
   (".svg", "Vector Image"), (".webm", "Video"), (".gz", "Archive"),
   (".tar", "Archive"), (".jar", "Java Archive"), (".fzz", "Fritzing"),
   (".vlw", "Font"), (".ttf", "Font")]

/-- `EmbeddedSystemsTools.SKIP_EXTENSIONS`. -/
def SKIP_EXTENSIONS : List String :=
  [".sb3", ".jpg", ".png", ".svg", ".webm",
   ".gz", ".tar", ".jar", ".fzz", ".vlw", ".ttf",
   ".idx", ".pack", ".rev"]

/-- Membership of an extension in the supported table
(Python `file_ext in self.SUPPORTED_EXTENSIONS`). -/
def supportedHas (ext : String) : Bool :=
  (SUPPORTED_EXTENSIONS.lookup ext).isSome

/-- Membership of an extension in the skip set
(Python `file_ext in self.SKIP_EXTENSIONS`). -/
def skipHas (ext : String) : Bool :=
  SKIP_EXTENSIONS.contains ext

/-- Python `str.strip()`: drop leading and trailing whitespace characters.
Defined over the character list so that it evaluates inside the kernel. -/
def pyStrip (s : String) : String :=
  ⟨((s.data.dropWhile Char.isWhitespace).reverse.dropWhile
      Char.isWhitespace).reverse⟩

/-- The extensions routed to the plain-text read in `_load_file`
(`['.txt', '.md', '.adoc']`). -/
def TEXT_EXTS : List String := [".txt", ".md", ".adoc"]

/-- The extensions routed to the code/config read in `_load_file`. -/
def CODE_EXTS : List String :=
  [".ino", ".pde", ".cpp", ".c", ".h", ".hpp", ".py", ".java",
   ".json", ".csv", ".yaml", ".yml", ".properties", ".sh"]

/-- Outcome of the extension checks at the top of `add_knowledge`, in the
order that method performs them: the supported-table test runs before the
skip-set test. -/
inductive ExtClass where
  | unsupported
  | binarySkip
  | ok
deriving Repr, DecidableEq, BEq

/-- Extension classification as `add_knowledge` performs it
(lines 116-121 of `src/tools/base.py`): `Unsupported` when the extension is
absent from the supported table, else `binarySkip` when it is in the skip
set, else eligible for extraction. -/
def classifyExt (ext : String) : ExtClass :=
  if !supportedHas ext then .unsupported
  else if skipHas ext then .binarySkip
  else .ok

/-- Abstraction of one file on disk: precisely the observations the Python
code makes of it. -/
structure FState where
  /-- `file_path.name` -/
  name : String
  /-- `str(file_path)` -/
  pathStr : String
  /-- `str(file_path.resolve())` -/
  resolved : String
  /-- `file_path.suffix.lower()` -/
  ext : String
  /-- `file_path.stat().st_size` -/
  size : Nat
  /-- `file_path.exists()` -/
  fexists : Bool
  /-- outcome of `open(file_path, errors='ignore').read()`;
  `none` means the read raised an `OSError` -/
  readResult : Option String
  /-- outcome of `PyPDFLoader(str(file_path)).load()`: page texts, or `none`
  when the loader raised -/
  pdfPages : Option (List String)
  /-- whether `vectorstore.add_documents` succeeds when invoked on this
  file's chunks -/
  addOk : Bool
  /-- `str(e)` of the exception raised when `addOk = false` -/
  errText : String
deriving Repr, DecidableEq

/-- `EmbeddedSystemsTools._load_file`: extension-directed extraction with the
noise heuristics. `none` models Python `None`; the surrounding
`try/except` means every raising path is also `none`. -/
def loadFile (f : FState) : Option (List String) :=
  if skipHas f.ext then none
  else if !supportedHas f.ext then none
  else if f.ext = ".pdf" then
    if f.size < 100 then none
    else
      match f.pdfPages with
      | none => none
      | some docs =>
        if docs.isEmpty || docs.all (fun d => (pyStrip d).length < 50) then none
        else some docs
  else if TEXT_EXTS.contains f.ext then
    match f.readResult with
    | none => none
    | some content =>
      if (pyStrip content).length < 10 then none else some [content]
  else if CODE_EXTS.contains f.ext then
    match f.readResult with
    | none => none
    | some content =>
      if (pyStrip content).length < 10 then none else some [content]
  else none

/-- Result of `add_knowledge`: the returned `(success, message)` pair plus the
ledger (`self.ingested_files`) after the call. -/
structure AddResult where
  success : Bool
  message : String
  ledger : Ledger
deriving Repr, DecidableEq

/-- `EmbeddedSystemsTools.add_knowledge`, with the splitter and the
vector-store availability passed explicitly. Every failure path of the
Python method returns `(False, reason)` and leaves `self.ingested_files`
untouched; the catch-all `except` around the body is modelled by the
function being total. -/
def addKnowledge (split : List String → List String) (vsAvailable : Bool)
    (f : FState) (ledger : Ledger) : AddResult :=
  if !f.fexists then
    ⟨false, "File not found: " ++ f.pathStr, ledger⟩
  else
    match SUPPORTED_EXTENSIONS.lookup f.ext with
    | none => ⟨false, "Unsupported file type: " ++ f.ext, ledger⟩
    | some ftype =>
      if skipHas f.ext then
        ⟨false, "Binary file skipped: " ++ f.ext, ledger⟩
      else
        match loadFile f with
        | none => ⟨false, "No content extracted from " ++ f.name, ledger⟩
        | some documents =>
          let texts := split documents
          if texts.isEmpty then
            ⟨false, "No text chunks created from " ++ f.name, ledger⟩
          else if vsAvailable then
            if f.addOk then
              ⟨true,
               "✅ Added " ++ toString texts.length ++ " chunks from "
                 ++ f.name ++ " (" ++ ftype ++ ")",
               dictInsert f.name ⟨f.pathStr, ftype, texts.length, f.size⟩ ledger⟩
            else
              ⟨false, "Error: " ++ f.errText.take 100, ledger⟩
          else
            ⟨false, "Vector store not available", ledger⟩

/-- A directory as `ingest_directory`/`scan_directory` observe it: printed
path, existence, directory-ness, and the regular files its glob yields in
order (`is_file()` entries only). -/
structure DirModel where
  pathStr : String
  dexists : Bool
  isDir : Bool
  files : List FState
deriving Repr

/-- Whether a file survives the candidate filter of `ingest_directory`
(lines 313-325): the skip-set test runs first, then the supported-table
test; both must let the file through. -/
def eligible (f : FState) : Bool :=
  !skipHas f.ext && supportedHas f.ext

/-- Python substring test `sub in s`, on character lists: does `sub` occur
contiguously in the second list? -/
def occursAt : List Char → List Char → Bool
  | [], _ => true
  | _ :: _, [] => false
  | a :: as, b :: bs => a == b && occursAt as bs

/-- Occurrence of `sub` anywhere in the list. -/
def occursIn (sub : List Char) : List Char → Bool
  | [] => occursAt sub []
  | b :: bs => occursAt sub (b :: bs) || occursIn sub bs

/-- Accumulator of the per-file loop in `ingest_directory`: the counters, the
aggregated error list, the `processed_files` dedup set, and the ledger the
`add_knowledge` calls thread through. -/
structure BatchState where
  succ : Nat
  fail : Nat
  errors : List String
  processed : List String
  ledger : Ledger
deriving Repr

/-- One iteration of the loop in `ingest_directory` (lines 333-353): dedup by
resolved path, call `add_knowledge`, bump a counter, and append to the error
list unless the message carries one of the two filtered phrases. -/
def ingestStep (split : List String → List String) (vsAvailable : Bool)
    (st : BatchState) (f : FState) : BatchState :=
  if st.processed.contains f.resolved then st
  else
    let st' := { st with processed := f.resolved :: st.processed }
    let r := addKnowledge split vsAvailable f st'.ledger
    if r.success then
      { st' with succ := st'.succ + 1, ledger := r.ledger }
    else
      { st' with
        fail := st'.fail + 1
        ledger := r.ledger
        errors :=
          if !occursIn ("No content extracted").data r.message.data &&
             !occursIn ("Binary file skipped").data r.message.data then
            st'.errors ++ [f.name ++ ": " ++ r.message]
          else st'.errors }

/-- `EmbeddedSystemsTools.ingest_directory`: the returned
`(success_count, fail_count, errors)` triple plus the ledger after the batch.
The local `skipped_count` of the Python code is not part of the return value
and the periodic progress print is pure observability; neither affects the
result. -/
def ingestDirectory (split : List String → List String) (vsAvailable : Bool)
    (d : DirModel) (ledger : Ledger) : (Nat × Nat × List String) × Ledger :=
  if !d.dexists || !d.isDir then
    ((0, 1, ["Directory not found: " ++ d.pathStr]), ledger)
  else
    let allFiles := d.files.filter eligible
    if allFiles.isEmpty then
      ((0, 0, ["No supported files found in directory"]), ledger)
    else
      let fin := allFiles.foldl (ingestStep split vsAvailable) ⟨0, 0, [], [], ledger⟩
      ((fin.succ, fin.fail, fin.errors), fin.ledger)

/-- Whether a file is counted by `scan_directory` (line 393): it skips a file
only when the extension is absent from the supported table or equals
`'.sb3'` — the other skip-set extensions are not excluded there. -/
def scanCounts (f : FState) : Bool :=
  supportedHas f.ext && !(f.ext == ".sb3")

/-- `EmbeddedSystemsTools.scan_directory`, reduced to the statistics the
claims are about: `none` models the error dict returned when the path does
not exist, otherwise `total_files` together with the total size in bytes
(the source reports the same sum scaled to megabytes, and also a per-kind
breakdown carrying no extra information about the total). -/
def scanDirectory (d : DirModel) : Option (Nat × Nat) :=
  if !d.dexists then none
  else
    let counted := d.files.filter scanCounts
    some (counted.length, (counted.map (fun f => f.size)).sum)

/-- One `(Document, score)` pair returned by
`vectorstore.similarity_search_with_score`: page content, the metadata fields
`search_knowledge` reads back (each may be absent), and the distance score.
Distances are modelled as exact rationals. -/
structure ScoredChunk where
  content : String
  sourceFile : Option String
  fileType : Option String
  sourcePath : Option String
  chunkSize : Option Nat
  score : ℚ
deriving Repr, DecidableEq

/-- One result dict built by `search_knowledge`. `relevance` is the numeric
value `(1 - score) * 100` that the source renders as the two-decimal
percentage string `f"{(1 - score):.2%}"`. -/
structure SearchResult where
  content : String
  sourceFile : String
  fileType : String
  sourcePath : String
  relevance : ℚ
  chunkSize : Option Nat
deriving Repr, DecidableEq

/-- The per-hit conversion in the loop of `search_knowledge`
(lines 257-266). -/
def toSearchResult (p : ScoredChunk) : SearchResult :=
  { content := p.content
    sourceFile := p.sourceFile.getD "Unknown"
    fileType := p.fileType.getD "Unknown"
    sourcePath := p.sourcePath.getD "N/A"
    relevance := (1 - p.score) * 100
    chunkSize := p.chunkSize }

/-- `EmbeddedSystemsTools.search_knowledge` on the main path: the vector
store is available and `similarity_search_with_score` returned `queryHits`.
(The unavailable-store and raised-exception paths instead return one sentinel
dict of a different shape and are outside the claims about scoring.) -/
def searchKnowledge (queryHits : List ScoredChunk) : List SearchResult :=
  queryHits.map toSearchResult

/-- `int(total_files * 0.05)` from `EmbeddedAgent._auto_ingest_on_startup`,
in exact arithmetic: truncation of a nonnegative value is the floor, so the
tolerance is `⌊total * 5 / 100⌋`. -/
def autoIngestTolerance (total : Nat) : Nat := total * 5 / 100

/-- The auto-ingest decision of `EmbeddedAgent._auto_ingest_on_startup`
(lines 71-104): `true` exactly when the startup hook reaches
`ingest_knowledge_base()`, which runs `ingest_directory` on the knowledge-base
directory with `recursive=True`. `scanError` is whether the fresh
`scan_knowledge_base()` returned its error dict; `total` its `total_files`;
`ingested` the ledger size `len(get_ingested_files())`. -/
def autoIngestRuns (scanError : Bool) (total ingested : Nat) : Bool :=
  if scanError then false
  else if total = 0 then false
  else if total - autoIngestTolerance total ≤ ingested then false
  else true

/-! ### Helper predicates over single files -/

/-- A file on which the single-file ingestion path fully succeeds: it exists,
survives both extension checks, extraction yields documents, the splitter
yields at least one chunk, and the vector-store write succeeds. -/
def validFor (split : List String → List String) (f : FState) : Bool :=
  f.fexists && eligible f &&
    (match loadFile f with
     | some docs => !(split docs).isEmpty
     | none => false) && f.addOk

/-- A file that exists and survives both extension checks but whose
extraction yields nothing (unreadable, malformed, or below the noise
heuristics): `add_knowledge` reports `No content extracted` for it. -/
def quietFail (f : FState) : Bool :=
  f.fexists && eligible f && (loadFile f).isNone

/-! ### Lemmas about the ledger dictionary -/

lemma dictInsert_idem (k : String) (v : LedgerEntry) (l : Ledger) :
    dictInsert k v (dictInsert k v l) = dictInsert k v l := by
  induction l with
  | nil => simp [dictInsert]
  | cons p rest ih =>
    by_cases h : p.1 = k
    · simp [dictInsert, h]
    · simp [dictInsert, h, ih]

lemma filter_key_eq_nil (k : String) (l : Ledger) (h : k ∉ l.map Prod.fst) :
    l.filter (fun p => p.1 == k) = [] := by
  induction l with
  | nil => rfl
  | cons p rest ih =>
    simp only [List.map_cons, List.mem_cons, not_or] at h
    have hne : (p.1 == k) = false := by
      simpa [beq_iff_eq] using Ne.symm h.1
    simp [List.filter_cons, hne, ih h.2]

lemma dictInsert_key_count (k : String) (v : LedgerEntry) (l : Ledger)
    (hnd : (l.map Prod.fst).Nodup) :
    ((dictInsert k v l).filter (fun p => p.1 == k)).length = 1 := by
  induction l with
  | nil => simp [dictInsert]
  | cons p rest ih =>
    simp only [List.map_cons, List.nodup_cons] at hnd
    by_cases h : p.1 = k
    · have : rest.filter (fun q => q.1 == k) = [] :=
        filter_key_eq_nil k rest (h ▸ hnd.1)
      simp [dictInsert, h, List.filter_cons, this]
    · have hne : (p.1 == k) = false := by simpa [beq_iff_eq] using h
      simp [dictInsert, h, List.filter_cons, hne, ih hnd.2]

/-! ### Characterizations of `addKnowledge` outcomes -/

lemma addKnowledge_quiet (split : List String → List String) (vs : Bool)
    (f : FState) (l : Ledger) (h : quietFail f = true) :
    addKnowledge split vs f l =
      ⟨false, "No content extracted from " ++ f.name, l⟩ := by
  unfold quietFail eligible at h
  simp only [Bool.and_eq_true, Bool.not_eq_true', Option.isNone_iff_eq_none] at h
  obtain ⟨⟨hfe, hskip, hsup⟩, hload⟩ := h
  obtain ⟨ftype, hty⟩ := Option.isSome_iff_exists.mp hsup
  simp [addKnowledge, hfe, hty, hskip, hload]

lemma addKnowledge_zero_chunks (split : List String → List String)
    (vs : Bool) (f : FState) (l : Ledger)
    (hfe : f.fexists = true) (hel : eligible f = true)
    (docs : List String) (hdocs : loadFile f = some docs)
    (hsplit : split docs = []) :
    addKnowledge split vs f l =
      ⟨false, "No text chunks created from " ++ f.name, l⟩ := by
  unfold eligible at hel
  simp only [Bool.and_eq_true, Bool.not_eq_true'] at hel
  obtain ⟨hskip, hsup⟩ := hel
  obtain ⟨ftype, hty⟩ := Option.isSome_iff_exists.mp hsup
  simp [addKnowledge, hfe, hty, hskip, hdocs, hsplit]

lemma addKnowledge_valid (split : List String → List String)
    (f : FState) (l : Ledger) (h : validFor split f = true) :
    ∃ ftype docs,
      SUPPORTED_EXTENSIONS.lookup f.ext = some ftype ∧
      loadFile f = some docs ∧
      addKnowledge split true f l =
        ⟨true,
         "✅ Added " ++ toString (split docs).length ++ " chunks from "
           ++ f.name ++ " (" ++ ftype ++ ")",
         dictInsert f.name ⟨f.pathStr, ftype, (split docs).length, f.size⟩ l⟩ := by
  unfold validFor eligible at h
  simp only [Bool.and_eq_true, Bool.not_eq_true'] at h
  obtain ⟨⟨⟨hfe, hskip, hsup⟩, hload⟩, hadd⟩ := h
  obtain ⟨ftype, hty⟩ := Option.isSome_iff_exists.mp hsup
  rcases hdocs : loadFile f with _ | docs
  · rw [hdocs] at hload; simp at hload
  · rw [hdocs] at hload
    refine ⟨ftype, docs, hty, rfl, ?_⟩
    simp only [Bool.not_eq_true'] at hload
    simp [addKnowledge, hfe, hty, hskip, hdocs, hload, hadd]

lemma validFor_not_quiet (split : List String → List String) (f : FState)
    (h : validFor split f = true) : quietFail f = false := by
  unfold validFor at h
  unfold quietFail
  simp only [Bool.and_eq_true] at h
  obtain ⟨⟨⟨hfe, hel⟩, hload⟩, _⟩ := h
  rcases hdocs : loadFile f with _ | docs
  · rw [hdocs] at hload; simp at hload
  · simp [hdocs]

lemma validFor_eligible (split : List String → List String) (f : FState)
    (h : validFor split f = true) : eligible f = true := by
  unfold validFor at h
  simp only [Bool.and_eq_true] at h
  exact h.1.1.2

lemma quietFail_eligible (f : FState) (h : quietFail f = true) :
    eligible f = true := by
  unfold quietFail at h
  simp only [Bool.and_eq_true] at h
  exact h.1.2

/-! ### Lemmas about the per-file batch step -/

lemma occursIn_noContent_self (n : List Char) :
    occursIn ("No content extracted").data
      (("No content extracted from ").data ++ n) = true := rfl

lemma occursIn_noContent_noChunks (n : List Char) :
    occursIn ("No content extracted").data
        (("No text chunks created from ").data ++ n)
      = occursIn ("No content extracted").data n := rfl

lemma occursIn_binSkip_noChunks (n : List Char) :
    occursIn ("Binary file skipped").data
        (("No text chunks created from ").data ++ n)
      = occursIn ("Binary file skipped").data n := rfl

lemma ingestStep_valid (split : List String → List String)
    (st : BatchState) (f : FState)
    (hv : validFor split f = true)
    (hp : st.processed.contains f.resolved = false) :
    ingestStep split true st f =
      { st with succ := st.succ + 1,
                processed := f.resolved :: st.processed,
                ledger := (addKnowledge split true f st.ledger).ledger } := by
  obtain ⟨ftype, docs, _, _, hres⟩ := addKnowledge_valid split f st.ledger hv
  have hp'' : ¬(st.processed.contains f.resolved = true) := by rw [hp]; simp
  unfold ingestStep
  rw [if_neg hp'']
  dsimp only
  rw [hres]
  rfl

lemma ingestStep_quiet (split : List String → List String) (vs : Bool)
    (st : BatchState) (f : FState)
    (hq : quietFail f = true)
    (hp : st.processed.contains f.resolved = false) :
    ingestStep split vs st f =
      { st with fail := st.fail + 1,
                processed := f.resolved :: st.processed } := by
  have hres := addKnowledge_quiet split vs f st.ledger hq
  have hp'' : ¬(st.processed.contains f.resolved = true) := by rw [hp]; simp
  unfold ingestStep
  rw [if_neg hp'']
  dsimp only
  rw [hres]
  rfl

/-- Joint specification of the `ingest_directory` loop on a batch in which
every file either fully succeeds or fails quietly with no extracted content:
successes and failures are counted exactly, and the error list stays empty. -/
lemma foldl_ingest_spec (split : List String → List String) :
    ∀ (l : List FState) (st : BatchState),
      (∀ f ∈ l, validFor split f = true ∨ quietFail f = true) →
      (l.map (fun f => f.resolved)).Nodup →
      (∀ f ∈ l, st.processed.contains f.resolved = false) →
      (l.foldl (ingestStep split true) st).succ
          = st.succ + l.countP (fun f => validFor split f) ∧
      (l.foldl (ingestStep split true) st).fail
          = st.fail + l.countP (fun f => quietFail f) ∧
      (l.foldl (ingestStep split true) st).errors = st.errors
  | [], st, _, _, _ => by simp
  | f :: rest, st, hall, hnd, hproc => by
    simp only [List.map_cons, List.nodup_cons] at hnd
    have hpf : st.processed.contains f.resolved = false :=
      hproc f (List.mem_cons_self f rest)
    have hrest_proc : ∀ g ∈ rest,
        (f.resolved :: st.processed).contains g.resolved = false := by
      intro g hg
      have hne : (g.resolved == f.resolved) = false := by
        have : g.resolved ≠ f.resolved := by
          intro he
          exact hnd.1 (he ▸ List.mem_map_of_mem (fun x => x.resolved) hg)
        simpa [beq_iff_eq] using this
      have := hproc g (List.mem_cons_of_mem f hg)
      simp_all [List.contains_cons]
    rcases hall f (List.mem_cons_self f rest) with hv | hq
    · have hstep := ingestStep_valid split st f hv hpf
      have ih := foldl_ingest_spec split rest
        { st with succ := st.succ + 1,
                  processed := f.resolved :: st.processed,
                  ledger := (addKnowledge split true f st.ledger).ledger }
        (fun g hg => hall g (List.mem_cons_of_mem f hg)) hnd.2 hrest_proc
      simp only [List.foldl_cons, hstep]
      refine ⟨?_, ?_, ?_⟩
      · rw [ih.1, List.countP_cons]
        simp [hv]; omega
      · rw [ih.2.1, List.countP_cons]
        simp [validFor_not_quiet split f hv]
      · exact ih.2.2
    · have hstep := ingestStep_quiet split true st f hq hpf
      have hvf : validFor split f = false := by
        rcases hvv : validFor split f with _ | _
        · rfl
        · rw [validFor_not_quiet split f hvv] at hq; exact absurd hq (by simp)
      have ih := foldl_ingest_spec split rest
        { st with fail := st.fail + 1,
                  processed := f.resolved :: st.processed }
        (fun g hg => hall g (List.mem_cons_of_mem f hg)) hnd.2 hrest_proc
      simp only [List.foldl_cons, hstep]
      refine ⟨?_, ?_, ?_⟩
      · rw [ih.1, List.countP_cons]
        simp [hvf]
      · rw [ih.2.1, List.countP_cons]
        simp [hq]; omega
      · exact ih.2.2

lemma quietFail_not_valid (split : List String → List String) (f : FState)
    (h : quietFail f = true) : validFor split f = false := by
  rcases hv : validFor split f with _ | _
  · rfl
  · rw [validFor_not_quiet split f hv] at h
    exact absurd h (by simp)

/-! ### Branch shapes of `_load_file` -/

lemma loadFile_pdf (f : FState) (hpdf : f.ext = ".pdf") :
    loadFile f =
      if f.size < 100 then none
      else
        match f.pdfPages with
        | none => none
        | some docs =>
          if docs.isEmpty || docs.all (fun d => (pyStrip d).length < 50) then none
          else some docs := by
  unfold loadFile
  rw [hpdf]
  rfl

lemma loadFile_textlike (f : FState)
    (hmem : (TEXT_EXTS.contains f.ext || CODE_EXTS.contains f.ext) = true) :
    loadFile f =
      match f.readResult with
      | none => none
      | some content =>
        if (pyStrip content).length < 10 then none else some [content] := by
  have hm : f.ext ∈ TEXT_EXTS ++ CODE_EXTS := by
    simp only [Bool.or_eq_true] at hmem
    rcases hmem with h | h
    · exact List.mem_append_left _ (by simpa using h)
    · exact List.mem_append_right _ (by simpa using h)
  simp only [TEXT_EXTS, CODE_EXTS, List.cons_append, List.nil_append,
    List.mem_cons, List.not_mem_nil, or_false] at hm
  rcases hm with h|h|h|h|h|h|h|h|h|h|h|h|h|h|h|h|h <;>
    · unfold loadFile
      rw [h]
      rfl

/-! ### Concrete fixtures used by witnesses and counterexamples -/

/-- A healthy plain-text file. -/
def wGoodTxt : FState :=
  ⟨"notes.txt", "/kb/notes.txt", "/kb/notes.txt", ".txt", 120, true,
   some "embedded systems lecture notes", none, true, ""⟩

/-- A healthy Python source file. -/
def wGoodPy : FState :=
  ⟨"blink.py", "/kb/blink.py", "/kb/blink.py", ".py", 80, true,
   some "import machine and toggle the led", none, true, ""⟩

/-- A corrupted PDF: large enough to pass the size floor, but the parser
raises on it, so extraction yields nothing. -/
def wBadPdf : FState :=
  ⟨"broken.pdf", "/kb/broken.pdf", "/kb/broken.pdf", ".pdf", 5000, true,
   none, none, true, "EOF marker not found"⟩

/-- The batch directory of the C1 witness: two healthy files around one
corrupted file. -/
def wBatchDir : DirModel := ⟨"/kb", true, true, [wGoodTxt, wBadPdf, wGoodPy]⟩

/-- A 2-byte text file with a supported extension (the C3 scenario). -/
def tinyFile : FState :=
  ⟨"tiny.txt", "/kb/tiny.txt", "/kb/tiny.txt", ".txt", 2, true,
   some "ab", none, true, ""⟩

/-- A directory holding only the 2-byte file. -/
def tinyDir : DirModel := ⟨"/kb", true, true, [tinyFile]⟩

/-- A healthy text file whose splitter output is empty in the C3 witness. -/
def wZeroChunk : FState :=
  ⟨"empty-split.md", "/kb/empty-split.md", "/kb/empty-split.md", ".md", 40,
   true, some "short but above the noise floor", none, true, ""⟩

/-- The C4 scenario directory: three `.py` files, two `.png` files, and one
50-byte `.pdf`. -/
def scanDemoDir : DirModel :=
  ⟨"/kb/demo", true, true,
   [⟨"a.py", "/kb/demo/a.py", "/kb/demo/a.py", ".py", 500, true,
     some "import machine as m", none, true, ""⟩,
    ⟨"b.py", "/kb/demo/b.py", "/kb/demo/b.py", ".py", 500, true,
     some "import utime as t", none, true, ""⟩,
    ⟨"c.py", "/kb/demo/c.py", "/kb/demo/c.py", ".py", 500, true,
     some "import network as n", none, true, ""⟩,
    ⟨"d.png", "/kb/demo/d.png", "/kb/demo/d.png", ".png", 2000, true,
     none, none, true, ""⟩,
    ⟨"e.png", "/kb/demo/e.png", "/kb/demo/e.png", ".png", 2000, true,
     none, none, true, ""⟩,
    ⟨"f.pdf", "/kb/demo/f.pdf", "/kb/demo/f.pdf", ".pdf", 50, true,
     none, none, true, ""⟩]⟩

/-- A path that is not an existing directory. -/
def ghostDir : DirModel := ⟨"/does/not/exist", false, false, []⟩

/-- A file path that does not exist (for the C10 witness). -/
def ghostFile : FState :=
  ⟨"gone.txt", "/kb/gone.txt", "/kb/gone.txt", ".txt", 0, false,
   none, none, true, ""⟩

/-- A small PDF (under the 100-byte floor) with a parseable text layer, and
a 2-byte text file, for the C6 witness. -/
def wSmallPdf : FState :=
  ⟨"small.pdf", "/kb/small.pdf", "/kb/small.pdf", ".pdf", 50, true,
   none, some ["this page has a perfectly reasonable amount of text on it"],
   true, ""⟩

/-- A near-empty markdown file for the C6 witness. -/
def wNoiseMd : FState :=
  ⟨"noise.md", "/kb/noise.md", "/kb/noise.md", ".md", 3, true,
   some "hi", none, true, ""⟩

/-- The file ingested twice in the C7 witness. -/
def wTwice : FState :=
  ⟨"spec.md", "/kb/spec.md", "/kb/spec.md", ".md", 64, true,
   some "a document that is long enough to keep", none, true, ""⟩

/-- Index hits for the C5 witness: two chunks, distances 1/10 and 3/2; the
second distance lies outside [0, 1], so its similarity comes out negative,
showing that no clamping is applied. -/
def wHits : List ScoredChunk :=
  [⟨"led blink chunk", some "blink.py", some "Python Code",
    some "/kb/blink.py", some 19, (1 : ℚ)/10⟩,
   ⟨"unrelated chunk", none, none, none, none, (3 : ℚ)/2⟩]

/-! ### Claims -/

/-- C2 counterexample: the binary-skip set and the supported table are not
disjoint — `.sb3` (like the ten other binary extensions) appears in both, so
the claimed disjointness fails. -/
theorem skip_and_supported_overlap :
    skipHas ".sb3" = true ∧ supportedHas ".sb3" = true := by decide

/-- C2 (amended): eleven binary extensions deliberately appear in both the
supported table and the skip set, and for those `add_knowledge` classifies
as a binary skip, never as unsupported; the skip set additionally holds
`.idx`, `.pack`, `.rev`, which are absent from the supported table, and for
those `add_knowledge` classifies as unsupported because its supported-table
test runs before its skip-set test. -/
theorem skip_set_split_by_supported_table :
    SKIP_EXTENSIONS.filter (fun e => supportedHas e)
        = [".sb3", ".jpg", ".png", ".svg", ".webm", ".gz", ".tar", ".jar",
           ".fzz", ".vlw", ".ttf"] ∧
    SKIP_EXTENSIONS.filter (fun e => !supportedHas e)
        = [".idx", ".pack", ".rev"] ∧
    (SKIP_EXTENSIONS.filter (fun e => supportedHas e)).all
        (fun e => classifyExt e == ExtClass.binarySkip) = true ∧
    (SKIP_EXTENSIONS.filter (fun e => !supportedHas e)).all
        (fun e => classifyExt e == ExtClass.unsupported) = true := by decide

/-- C4: scanning the scenario directory of three `.py` files, two `.png`
files and one 50-byte `.pdf` reports `total_files = 6`, not 4: the scan
filter tests only membership in the supported table and equality with
`'.sb3'`, so `.png` files (present in the supported table) are counted, as
is the small PDF (no content heuristic is applied while scanning). This
contradicts the claimed count 4 and the inline comment of the filter, which
announces that binary files are skipped. -/
theorem scanDirectory_counts_png_and_small_pdf :
    scanDirectory scanDemoDir = some (6, 5550) ∧
    (scanDemoDir.files.filter scanCounts).map (fun f => f.name)
        = ["a.py", "b.py", "c.py", "d.png", "e.png", "f.pdf"] := by decide

/-- C8: for a path that does not exist or is not a directory,
`ingest_directory` returns immediately with `success_count = 0`,
`fail_count = 1` and a single descriptive not-found message, touching no
file. -/
theorem ingestDirectory_missing_root (split : List String → List String)
    (vs : Bool) (d : DirModel) (l : Ledger)
    (h : d.dexists = false ∨ d.isDir = false) :
    (ingestDirectory split vs d l).1
        = (0, 1, ["Directory not found: " ++ d.pathStr]) := by
  unfold ingestDirectory
  rcases h with h | h <;> simp [h]

/-- C8 witness: the theorem applied to a concrete missing directory. -/
theorem ingestDirectory_missing_root_witness :
    (ingestDirectory (fun d => d) true ghostDir []).1
        = (0, 1, ["Directory not found: /does/not/exist"]) :=
  ingestDirectory_missing_root (fun d => d) true ghostDir [] (Or.inl rfl)

/-- C9: when the startup scan succeeds, re-ingestion is skipped exactly when
the ledger size has reached the freshly scanned total minus the 5 per cent
tolerance `⌊total * 0.05⌋`; otherwise the full recursive ingestion of the
knowledge-base directory runs. -/
theorem autoIngest_skip_threshold (total ingested : Nat) :
    autoIngestRuns false total ingested = false ↔
      total - total * 5 / 100 ≤ ingested := by
  unfold autoIngestRuns autoIngestTolerance
  by_cases h0 : total = 0
  · subst h0
    simp
  · simp only [if_neg h0, if_neg (by simp : ¬False)]
    by_cases hle : total - total * 5 / 100 ≤ ingested
    · simp [hle]
    · simp [hle]

/-- C10: on every failing outcome of `add_knowledge` — file not found,
unsupported extension, binary skip, empty extraction, zero chunks, vector
store unavailable, or a raised vector-store write — the ingestion ledger is
left exactly as it was; only the success branch, entered after the store
write, performs the upsert. -/
theorem addKnowledge_failure_preserves_ledger
    (split : List String → List String) (vs : Bool) (f : FState) (l : Ledger)
    (h : (addKnowledge split vs f l).success = false) :
    (addKnowledge split vs f l).ledger = l := by
  rcases hfe : f.fexists with _ | _
  · simp [addKnowledge, hfe]
  · rcases hty : SUPPORTED_EXTENSIONS.lookup f.ext with _ | ftype
    · simp [addKnowledge, hfe, hty]
    · rcases hskip : skipHas f.ext with _ | _
      · rcases hload : loadFile f with _ | docs
        · simp [addKnowledge, hfe, hty, hskip, hload]
        · rcases hemp : (split docs).isEmpty with _ | _
          · rcases hvs : vs with _ | _
            · simp [addKnowledge, hfe, hty, hskip, hload, hemp, hvs]
            · rcases hok : f.addOk with _ | _
              · simp [addKnowledge, hfe, hty, hskip, hload, hemp, hvs, hok]
              · exfalso
                simp [addKnowledge, hfe, hty, hskip, hload, hemp, hvs, hok] at h
          · simp [addKnowledge, hfe, hty, hskip, hload, hemp]
      · simp [addKnowledge, hfe, hty, hskip]

/-- C10 witness: the theorem applied to a file that does not exist; the
ledger is unchanged. -/
theorem addKnowledge_failure_preserves_ledger_witness :
    (addKnowledge (fun d => d) true ghostFile []).ledger = [] :=
  addKnowledge_failure_preserves_ledger (fun d => d) true ghostFile []
    (by decide)

/-- C7: recording an ingested file is an unconditional upsert keyed by
filename: on a file whose single-file ingestion succeeds, running
`add_knowledge` a second time from the state left by the first returns the
identical result — same message, same chunk count, same ledger — and the
ledger holds exactly one entry under that filename. -/
theorem addKnowledge_upsert_idempotent
    (split : List String → List String) (f : FState) (l : Ledger)
    (hnd : (l.map Prod.fst).Nodup)
    (hv : validFor split f = true) :
    addKnowledge split true f (addKnowledge split true f l).ledger
        = addKnowledge split true f l ∧
    ((addKnowledge split true f l).ledger.filter
        (fun p => p.1 == f.name)).length = 1 := by
  obtain ⟨ftype, docs, hty, hdocs, hres⟩ := addKnowledge_valid split f l hv
  obtain ⟨ftype2, docs2, hty2, hdocs2, hres2⟩ :=
    addKnowledge_valid split f (addKnowledge split true f l).ledger hv
  have hft : ftype2 = ftype := Option.some.inj (hty2 ▸ hty)
  have hdc : docs2 = docs := Option.some.inj (hdocs2 ▸ hdocs)
  subst hft hdc
  constructor
  · rw [hres2, hres]
    simp [dictInsert_idem]
  · rw [hres]
    exact dictInsert_key_count f.name _ l hnd

/-- C7 witness: the theorem applied to a concrete markdown file ingested
twice from the empty ledger. -/
theorem addKnowledge_upsert_idempotent_witness :
    addKnowledge (fun d => d) true wTwice
        (addKnowledge (fun d => d) true wTwice []).ledger
      = addKnowledge (fun d => d) true wTwice [] ∧
    ((addKnowledge (fun d => d) true wTwice []).ledger.filter
        (fun p => p.1 == wTwice.name)).length = 1 :=
  addKnowledge_upsert_idempotent (fun d => d) wTwice [] (by decide) (by decide)

/-- C5: when the index honours its contract — at most `k` hits, ordered by
ascending distance — `search_knowledge` returns at most `k` results in
descending similarity order, and every result's similarity is exactly
`(1 - d) * 100` for the hit's distance `d`, with no clamping applied to
out-of-range distances. -/
theorem searchKnowledge_bounded_and_sorted (k : Nat)
    (hits : List ScoredChunk)
    (hk : hits.length ≤ k)
    (hsorted : hits.Sorted (fun p q => p.score ≤ q.score)) :
    (searchKnowledge hits).length ≤ k ∧
    (searchKnowledge hits).Sorted (fun r s => s.relevance ≤ r.relevance) ∧
    (searchKnowledge hits).map (fun r => r.relevance)
        = hits.map (fun p => (1 - p.score) * 100) := by
  refine ⟨by simpa [searchKnowledge] using hk, ?_, ?_⟩
  · rw [List.Sorted] at hsorted ⊢
    unfold searchKnowledge
    refine List.Pairwise.map _ ?_ hsorted
    intro p q hpq
    show (toSearchResult q).relevance ≤ (toSearchResult p).relevance
    unfold toSearchResult
    dsimp only
    linarith
  · unfold searchKnowledge
    rw [List.map_map]
    rfl

/-- C5 witness: the theorem applied to two concrete hits with distances
1/10 and 3/2; the out-of-range distance 3/2 yields the unclamped similarity
-50. -/
theorem searchKnowledge_bounded_and_sorted_witness :
    (searchKnowledge wHits).length ≤ 3 ∧
    (searchKnowledge wHits).Sorted (fun r s => s.relevance ≤ r.relevance) ∧
    (searchKnowledge wHits).map (fun r => r.relevance)
        = wHits.map (fun p => (1 - p.score) * 100) :=
  searchKnowledge_bounded_and_sorted 3 wHits (by norm_num [wHits])
    (by simp [wHits, List.sorted_cons]; norm_num)

/-- C6: for an eligible file, extraction returns none exactly under the
noise heuristics, and no exception reaches the caller (the model is a total
function): a PDF whose parse succeeds yields none iff its size is under 100
bytes or every extracted page's stripped text is under 50 characters; a
text, markup, source-code or config file whose read succeeds yields none
iff its stripped content is under 10 characters. -/
theorem loadFile_none_iff_noise (f : FState) :
    (f.ext = ".pdf" → ∀ pages, f.pdfPages = some pages →
      (loadFile f = none ↔
        (f.size < 100 ∨ ∀ p ∈ pages, (pyStrip p).length < 50))) ∧
    ((TEXT_EXTS.contains f.ext || CODE_EXTS.contains f.ext) = true →
      ∀ content, f.readResult = some content →
      (loadFile f = none ↔ (pyStrip content).length < 10)) := by
  constructor
  · intro hpdf pages hpages
    rw [loadFile_pdf f hpdf]
    by_cases hs : f.size < 100
    · simp [hs]
    · simp only [if_neg hs, hpages]
      have hsor : (f.size < 100 ∨ ∀ p ∈ pages, (pyStrip p).length < 50) ↔
          (∀ p ∈ pages, (pyStrip p).length < 50) := by
        constructor
        · rintro (h | h)
          · exact absurd h hs
          · exact h
        · exact Or.inr
      rw [hsor]
      by_cases hcond :
          (pages.isEmpty || pages.all (fun d => (pyStrip d).length < 50)) = true
      · rw [if_pos hcond]
        refine iff_of_true rfl ?_
        have hcases : pages = [] ∨ ∀ p ∈ pages, (pyStrip p).length < 50 := by
          simpa [List.isEmpty_iff] using hcond
        rcases hcases with he | ha
        · subst he
          intro p hp
          cases hp
        · exact ha
      · rw [if_neg hcond]
        constructor
        · intro h
          exact Option.noConfusion h
        · intro hforall
          exfalso
          have hall : pages.all (fun d => (pyStrip d).length < 50) = true :=
            List.all_eq_true.mpr (fun p hp => by simpa using hforall p hp)
          exact hcond (by rw [hall]; simp)
  · intro hmem content hcontent
    rw [loadFile_textlike f hmem]
    rw [hcontent]
    by_cases h10 : (pyStrip content).length < 10
    · simp [h10]
    · simp [h10]

/-- C6 witness: the theorem applied to a 50-byte PDF whose parse succeeds
(extraction yields none via the 100-byte floor) and to a markdown file
whose stripped content is 2 characters (none via the 10-character floor). -/
theorem loadFile_none_iff_noise_witness :
    loadFile wSmallPdf = none ∧ loadFile wNoiseMd = none :=
  ⟨((loadFile_none_iff_noise wSmallPdf).1 rfl
      ["this page has a perfectly reasonable amount of text on it"] rfl).mpr
      (Or.inl (by decide)),
   ((loadFile_none_iff_noise wNoiseMd).2 (by decide) "hi" rfl).mpr (by decide)⟩

/-- C3 counterexample: a directory holding one 2-byte text file with a
supported extension: extraction yields no documents, yet the batch returns
`success_count = 0` and `fail_count = 1` — the failure count is
incremented, refuting the claim that such a file is recorded as a skip and
not counted (the aggregated error list does stay empty). -/
theorem empty_content_increments_fail_count :
    loadFile tinyFile = none ∧
    (ingestDirectory (fun d => d) true tinyDir []).1 = (0, 1, []) :=
  ⟨rfl, rfl⟩

/-- C3 (amended): a candidate file whose extraction yields no documents is
counted as a failure — `fail_count` rises by one — but its
`No content extracted` message is filtered out of the aggregated error
list; a candidate file whose splitter output is empty is likewise counted
as a failure, and its `No text chunks created` message is appended to the
error list (for filenames that do not themselves contain a filtered
phrase). -/
theorem zero_yield_failure_accounting
    (split : List String → List String) (vs : Bool) (st : BatchState)
    (f : FState)
    (hp : st.processed.contains f.resolved = false)
    (hfe : f.fexists = true) (hel : eligible f = true) :
    (loadFile f = none →
      ingestStep split vs st f =
        { st with
            fail := st.fail + 1
            processed := f.resolved :: st.processed }) ∧
    (∀ docs, loadFile f = some docs → split docs = [] →
      occursIn ("No content extracted").data f.name.data = false →
      occursIn ("Binary file skipped").data f.name.data = false →
      ingestStep split vs st f =
        { st with
            fail := st.fail + 1
            processed := f.resolved :: st.processed
            errors := st.errors ++
              [f.name ++ ": " ++ ("No text chunks created from " ++ f.name)] }) := by
  constructor
  · intro hload
    exact ingestStep_quiet split vs st f
      (by unfold quietFail; rw [hfe, hel, hload]; rfl) hp
  · intro docs hdocs hsplit hocc1 hocc2
    have hres :=
      addKnowledge_zero_chunks split vs f st.ledger hfe hel docs hdocs hsplit
    have hp'' : ¬(st.processed.contains f.resolved = true) := by rw [hp]; simp
    have e1 : occursIn ("No content extracted").data
        ("No text chunks created from " ++ f.name).data = false := by
      rw [String.data_append]
      calc occursIn ("No content extracted").data
            (("No text chunks created from ").data ++ f.name.data)
          = occursIn ("No content extracted").data f.name.data := rfl
        _ = false := hocc1
    have e2 : occursIn ("Binary file skipped").data
        ("No text chunks created from " ++ f.name).data = false := by
      rw [String.data_append]
      calc occursIn ("Binary file skipped").data
            (("No text chunks created from ").data ++ f.name.data)
          = occursIn ("Binary file skipped").data f.name.data := rfl
        _ = false := hocc2
    unfold ingestStep
    rw [if_neg hp'']
    dsimp only
    rw [hres]
    dsimp only
    rw [e1, e2]
    rfl

/-- C3 witness: both parts of the amended theorem at concrete inputs: the
2-byte text file raises the failure count leaving the error list empty; a
zero-chunk file raises the failure count and lands in the error list. -/
theorem zero_yield_failure_accounting_witness :
    ingestStep (fun d => d) true ⟨0, 0, [], [], []⟩ tinyFile =
      { succ := 0, fail := 1, errors := [],
        processed := [tinyFile.resolved], ledger := [] } ∧
    ingestStep (fun _ => []) true ⟨0, 0, [], [], []⟩ wZeroChunk =
      { succ := 0, fail := 1
        errors := [wZeroChunk.name ++ ": " ++
          ("No text chunks created from " ++ wZeroChunk.name)]
        processed := [wZeroChunk.resolved], ledger := [] } :=
  ⟨(zero_yield_failure_accounting (fun d => d) true ⟨0, 0, [], [], []⟩
      tinyFile rfl rfl (by decide)).1 rfl,
   (zero_yield_failure_accounting (fun _ => []) true ⟨0, 0, [], [], []⟩
      wZeroChunk rfl rfl (by decide)).2
      ["short but above the noise floor"] rfl rfl (by decide) (by decide)⟩

/-- C1: partial-failure isolation: over a batch directory whose candidate
files all succeed except one whose extraction fails, the batch processes
every file, never aborts (the model is a total function, matching the
catch-all handler around each file), and returns
`success_count = N - 1`, `fail_count = 1` and an empty error list. -/
theorem ingest_isolates_one_bad_file
    (split : List String → List String) (ledger : Ledger) (d : DirModel)
    (a b : List FState) (c : FState)
    (hfiles : d.files = a ++ c :: b)
    (hex : d.dexists = true) (hdir : d.isDir = true)
    (hvalid : ∀ f ∈ a ++ b, validFor split f = true)
    (hbad : quietFail c = true)
    (hnd : (d.files.map (fun f => f.resolved)).Nodup) :
    (ingestDirectory split true d ledger).1 = (d.files.length - 1, 1, []) := by
  have hall : ∀ f ∈ d.files, validFor split f = true ∨ quietFail f = true := by
    intro f hf
    rw [hfiles] at hf
    rcases List.mem_append.mp hf with hfa | hfc
    · exact Or.inl (hvalid f (List.mem_append_left _ hfa))
    · rcases List.mem_cons.mp hfc with rfl | hfb
      · exact Or.inr hbad
      · exact Or.inl (hvalid f (List.mem_append_right _ hfb))
  have hfilter : d.files.filter eligible = d.files := by
    rw [List.filter_eq_self]
    intro f hf
    rcases hall f hf with hv | hq
    · exact validFor_eligible split f hv
    · exact quietFail_eligible f hq
  have hne : d.files.isEmpty = false := by
    rw [hfiles]
    rcases a with _ | ⟨x, a2⟩ <;> rfl
  have hcond : ¬((!d.dexists || !d.isDir) = true) := by rw [hex, hdir]; simp
  obtain ⟨hsucc, hfail, herr⟩ :=
    foldl_ingest_spec split d.files ⟨0, 0, [], [], ledger⟩ hall hnd
      (fun f hf => rfl)
  have hcv : d.files.countP (fun f => validFor split f)
      = a.length + b.length := by
    rw [hfiles, List.countP_append, List.countP_cons]
    have hca : a.countP (fun f => validFor split f) = a.length := by
      rw [List.countP_eq_length]
      intro f hf
      exact hvalid f (List.mem_append_left _ hf)
    have hcb : b.countP (fun f => validFor split f) = b.length := by
      rw [List.countP_eq_length]
      intro f hf
      exact hvalid f (List.mem_append_right _ hf)
    rw [hca, hcb]
    simp [quietFail_not_valid split c hbad]
  have hcq : d.files.countP (fun f => quietFail f) = 1 := by
    rw [hfiles, List.countP_append, List.countP_cons]
    have hca : a.countP (fun f => quietFail f) = 0 := by
      rw [List.countP_eq_zero]
      intro f hf
      rw [validFor_not_quiet split f (hvalid f (List.mem_append_left _ hf))]
      simp
    have hcb : b.countP (fun f => quietFail f) = 0 := by
      rw [List.countP_eq_zero]
      intro f hf
      rw [validFor_not_quiet split f (hvalid f (List.mem_append_right _ hf))]
      simp
    rw [hca, hcb]
    simp [hbad]
  unfold ingestDirectory
  rw [if_neg hcond]
  dsimp only
  rw [hfilter]
  rw [if_neg (by rw [hne]; simp : ¬(d.files.isEmpty = true))]
  dsimp only
  rw [hsucc, hfail, herr, hcv, hcq, hfiles]
  simp [List.length_append]

/-- C1 witness: a three-file batch whose middle file is a corrupted PDF:
two successes, one failure, empty error list. -/
theorem ingest_isolates_one_bad_file_witness :
    (ingestDirectory (fun d => d) true wBatchDir []).1 = (2, 1, []) :=
  ingest_isolates_one_bad_file (fun d => d) [] wBatchDir
    [wGoodTxt] [wGoodPy] wBadPdf rfl rfl rfl (by decide) (by decide)
    (by decide)

end MajorP
